import Mathlib

/-!
rclcpp: service dispatch, allocator utilities and the multi-threaded executor.

A shallow embedding of

* `rclcpp/allocator/allocator_common.hpp` (`allocator_static_pointer_cast`),
* `rclcpp/service.hpp` (`Service`: `create_request`, `create_request_header`,
  `handle_request`, `send_response`),
* `rclcpp/executors/multi_threaded_executor.hpp` (`MultiThreadedExecutor`: constructor,
  `get_number_of_threads`, `spin`, `run`).

Memory is an allocation log: every `std::allocate_shared` appends one block that records the
allocator object used and the object constructed; a `std::shared_ptr` is the index of its
block.  Releasing storage is not modelled.  Calls into `rmw` are recorded in a call log.
-/

namespace rclcpp

/-- Exceptions that can leave the embedded functions. -/
inductive Exception where
  /-- A `std::runtime_error` with its `what()` text. -/
  | runtime_error (what : String)
  /-- Anything thrown by application code (a user callback, an executable). -/
  | user_fault (what : String)
  deriving DecidableEq, Repr

/-- The return code type of `rmw`. -/
abbrev rmw_ret_t := Int

/-- The success code of `rmw`. -/
def RMW_RET_OK : rmw_ret_t := 0

namespace allocator

/-- The value types the service layer rebinds its allocator to. -/
inductive ValueType where
  | Request
  | Response
  | rmw_request_id_t
  deriving DecidableEq, Repr

/-- An allocator object of type `AllocRebind<T, Alloc>::allocator_type`, copy-constructed from
an `Alloc` instance: it keeps the state of the instance it came from and the type `T` it was
rebound to. -/
structure Rebound (Alloc : Type) where
  base : Alloc
  value_type : ValueType
  deriving DecidableEq, Repr

/-- The objects that live behind the type-erased handles of a service. -/
inductive Object (Req Resp Hdr : Type) where
  | request (r : Req)
  | response (r : Resp)
  | request_id (h : Hdr)
  deriving DecidableEq, Repr

/-- The effect of `static_cast<Request *>` followed by a dereference: defined only when the
storage holds a request. -/
def Object.asRequest {Req Resp Hdr : Type} : Object Req Resp Hdr → Option Req
  | .request r => some r
  | _ => none

/-- The effect of `static_cast<Response *>` followed by a dereference. -/
def Object.asResponse {Req Resp Hdr : Type} : Object Req Resp Hdr → Option Resp
  | .response r => some r
  | _ => none

/-- The effect of `static_cast<rmw_request_id_t *>` followed by a dereference. -/
def Object.asRequestId {Req Resp Hdr : Type} : Object Req Resp Hdr → Option Hdr
  | .request_id h => some h
  | _ => none

/-- One allocation: the allocator object it went through and the object constructed in it. -/
structure Block (Alloc Req Resp Hdr : Type) where
  alloc : Rebound Alloc
  obj : Object Req Resp Hdr
  deriving DecidableEq, Repr

/-- The allocation log; a shared pointer is an index into it. -/
abbrev Heap (Alloc Req Resp Hdr : Type) := List (Block Alloc Req Resp Hdr)

/-- The model of `std::allocate_shared<T>(alloc, args...)`: one allocation through `alloc`
holding the constructed object; the returned pointer refers to the new storage. -/
def allocate_shared {Alloc Req Resp Hdr : Type} (alloc : Rebound Alloc)
    (obj : Object Req Resp Hdr) (heap : Heap Alloc Req Resp Hdr) :
    Heap Alloc Req Resp Hdr × Nat :=
  (heap ++ [⟨alloc, obj⟩], heap.length)

/-- The number of allocations in the log made through allocator object `alloc`. -/
def allocations_through {Alloc Req Resp Hdr : Type} [DecidableEq Alloc] (alloc : Rebound Alloc)
    (heap : Heap Alloc Req Resp Hdr) : Nat :=
  (heap.filter (fun b => decide (b.alloc = alloc))).length

/-- The embedding of `allocator_static_pointer_cast<T>(p, alloc)`:
`T * q = static_cast<T*>(p.get()); return std::allocate_shared<T>(alloc, *q);`.
`view` is the cast-and-dereference at type `T`, `wrap` the copy construction of a `T`.
The result is `none` when `p` does not point to a `T` (undefined behaviour in the source). -/
def allocator_static_pointer_cast {Alloc Req Resp Hdr T : Type}
    (view : Object Req Resp Hdr → Option T) (wrap : T → Object Req Resp Hdr)
    (p : Nat) (alloc : Rebound Alloc) (heap : Heap Alloc Req Resp Hdr) :
    Option (Heap Alloc Req Resp Hdr × Nat) :=
  match heap[p]? with
  | none => none
  | some blk =>
    match view blk.obj with
    | none => none
    | some q => some (allocate_shared alloc (wrap q) heap)

end allocator

namespace service

open allocator

/-- One call of `rmw_send_response(service_handle, request_header, ros_response)`, with the
objects behind the two raw pointers as they were at the time of the call. -/
structure SendCall (Resp Hdr : Type) where
  service_handle : Nat
  request_header : Hdr
  ros_response : Resp
  deriving DecidableEq, Repr

/-- The part of `rmw` the service layer calls: the status `rmw_send_response` returns for a
call (it may depend on the calls made before) and the text of
`rmw_get_error_string_safe()`. -/
structure Rmw (Resp Hdr : Type) where
  rmw_send_response : List (SendCall Resp Hdr) → SendCall Resp Hdr → rmw_ret_t
  rmw_get_error_string_safe : String

/-- The memory and the transport as the service layer sees them. -/
structure World (Alloc Req Resp Hdr : Type) where
  heap : Heap Alloc Req Resp Hdr
  sent : List (SendCall Resp Hdr)
  deriving DecidableEq, Repr

/-- What one invocation of a user callback leaves behind: the states of the identifier, the
request and the response objects it was handed (it gets shared pointers to all three, and the
pointees are writable), and whether it returned or threw. -/
structure Invocation (Req Resp Hdr : Type) where
  request_header : Hdr
  request : Req
  response : Resp
  outcome : Except Exception Unit

/-- Modelled from the spec: `AnyServiceCallback` (`rclcpp/any_service_callback.hpp` is not
among the sources).  The registered user callback is invoked with (request, response) or with
(identifier, request, response) depending on the registration form.  The callback signatures
are those of `Service` (`CallbackType`, `CallbackWithHeaderType`): every argument is a
`std::shared_ptr` to a non-const object, so a callback may leave each object it is handed in a
new state, and it either returns or throws. -/
inductive AnyServiceCallback (Req Resp Hdr : Type) where
  | shared_ptr_callback (f : Req → Resp → Req × Resp × Except Exception Unit)
  | shared_ptr_with_request_header_callback
      (f : Hdr → Req → Resp → Hdr × Req × Resp × Except Exception Unit)

/-- The state of a `Service<ServiceT, Alloc>` object. -/
structure Service (Alloc Req Resp Hdr : Type) where
  service_handle_ : Nat
  service_name_ : String
  any_callback_ : AnyServiceCallback Req Resp Hdr
  request_allocator_ : Rebound Alloc
  response_allocator_ : Rebound Alloc
  header_allocator_ : Rebound Alloc

/-- The constructor of `Service`: a missing allocator is replaced by a default-constructed
`Alloc`, and the three role allocators are copy-constructed from it. -/
def Service.create {Alloc Req Resp Hdr : Type} [Inhabited Alloc]
    (service_handle : Nat) (service_name : String)
    (any_callback : AnyServiceCallback Req Resp Hdr) (allocator : Option Alloc) :
    Service Alloc Req Resp Hdr :=
  let allocator := match allocator with
    | none => default
    | some a => a
  { service_handle_ := service_handle
    service_name_ := service_name
    any_callback_ := any_callback
    request_allocator_ := ⟨allocator, ValueType.Request⟩
    response_allocator_ := ⟨allocator, ValueType.Response⟩
    header_allocator_ := ⟨allocator, ValueType.rmw_request_id_t⟩ }

/-- The embedding of `Service::create_request`:
`std::allocate_shared<Request>(*request_allocator_.get())`. -/
def Service.create_request {Alloc Req Resp Hdr : Type} [Inhabited Req]
    (self : Service Alloc Req Resp Hdr) (heap : Heap Alloc Req Resp Hdr) :
    Heap Alloc Req Resp Hdr × Nat :=
  allocate_shared self.request_allocator_ (Object.request default) heap

/-- The embedding of `Service::create_request_header`:
`std::allocate_shared<rmw_request_id_t>(*header_allocator_.get())`. -/
def Service.create_request_header {Alloc Req Resp Hdr : Type} [Inhabited Hdr]
    (self : Service Alloc Req Resp Hdr) (heap : Heap Alloc Req Resp Hdr) :
    Heap Alloc Req Resp Hdr × Nat :=
  allocate_shared self.header_allocator_ (Object.request_id default) heap

/-- Modelled from the spec: the choice `AnyServiceCallback::dispatch` makes between the two
registration forms (its header is not among the sources): a callback registered without
identifier gets (request, response) and cannot reach the identifier, one registered with
identifier gets (identifier, request, response). -/
def AnyServiceCallback.invoke {Req Resp Hdr : Type} (cb : AnyServiceCallback Req Resp Hdr)
    (h : Hdr) (q : Req) (r : Resp) : Invocation Req Resp Hdr :=
  match cb with
  | .shared_ptr_callback f =>
    match f q r with
    | (q1, r1, outcome) =>
      { request_header := h, request := q1, response := r1, outcome := outcome }
  | .shared_ptr_with_request_header_callback f =>
    match f h q r with
    | (h1, q1, r1, outcome) =>
      { request_header := h1, request := q1, response := r1, outcome := outcome }

/-- Modelled from the spec: `AnyServiceCallback::dispatch` (its header is not among the
sources).  It reads the objects behind the three handles, invokes the registered callback in
its registration form, and the three objects are left in the states the callback gave them;
an exception of the callback leaves `dispatch`.
The result is `none` when a handle does not point to an object of its type. -/
def AnyServiceCallback.dispatch {Alloc Req Resp Hdr : Type}
    (cb : AnyServiceCallback Req Resp Hdr) (request_header request response : Nat)
    (heap : Heap Alloc Req Resp Hdr) :
    Option (Heap Alloc Req Resp Hdr × Except Exception Unit) :=
  match heap[request_header]?, heap[request]?, heap[response]? with
  | some hb, some qb, some rb =>
    match hb.obj.asRequestId, qb.obj.asRequest, rb.obj.asResponse with
    | some h, some q, some r =>
      match cb.invoke h q r with
      | o =>
        some (((heap.set request_header ⟨hb.alloc, Object.request_id o.request_header⟩).set
          request ⟨qb.alloc, Object.request o.request⟩).set
          response ⟨rb.alloc, Object.response o.response⟩, o.outcome)
    | _, _, _ => none
  | _, _, _ => none

/-- The embedding of `Service::send_response`: one call of `rmw_send_response` with the
service handle and the objects behind `req_id` and `response`; a status other than
`RMW_RET_OK` throws `std::runtime_error`. -/
def Service.send_response {Alloc Req Resp Hdr : Type}
    (self : Service Alloc Req Resp Hdr) (rmw : Rmw Resp Hdr) (req_id response : Nat)
    (w : World Alloc Req Resp Hdr) :
    Option (World Alloc Req Resp Hdr × Except Exception Unit) :=
  match w.heap[req_id]?, w.heap[response]? with
  | some hb, some rb =>
    match hb.obj.asRequestId, rb.obj.asResponse with
    | some h, some r =>
      let call : SendCall Resp Hdr := ⟨self.service_handle_, h, r⟩
      let status := rmw.rmw_send_response w.sent call
      let w1 : World Alloc Req Resp Hdr := { w with sent := w.sent ++ [call] }
      if status ≠ RMW_RET_OK then
        some (w1, .error (.runtime_error
          ("failed to send response: " ++ rmw.rmw_get_error_string_safe)))
      else
        some (w1, .ok ())
    | _, _ => none
  | _, _ => none

/-- The embedding of `Service::handle_request`. -/
def Service.handle_request {Alloc Req Resp Hdr : Type} [Inhabited Resp]
    (self : Service Alloc Req Resp Hdr) (rmw : Rmw Resp Hdr) (request_header request : Nat)
    (w : World Alloc Req Resp Hdr) :
    Option (World Alloc Req Resp Hdr × Except Exception Unit) :=
  -- typed_request = allocator_static_pointer_cast<Request>(request, *request_allocator_)
  match allocator_static_pointer_cast Object.asRequest Object.request
      request self.request_allocator_ w.heap with
  | none => none
  | some (heap1, typed_request) =>
    -- typed_request_header =
    --   allocator_static_pointer_cast<rmw_request_id_t>(request_header, *request_allocator_)
    match allocator_static_pointer_cast Object.asRequestId Object.request_id
        request_header self.request_allocator_ heap1 with
    | none => none
    | some (heap2, typed_request_header) =>
      -- response = std::allocate_shared<Response>(*response_allocator_)
      match allocate_shared self.response_allocator_ (Object.response default) heap2 with
      | (heap3, response) =>
        -- any_callback_.dispatch(typed_request_header, typed_request, response)
        match self.any_callback_.dispatch typed_request_header typed_request response heap3 with
        | none => none
        | some (heap4, .error e) => some ({ w with heap := heap4 }, .error e)
        | some (heap4, .ok ()) =>
          -- send_response(typed_request_header, response)
          self.send_response rmw typed_request_header response { w with heap := heap4 }

/-- The request of the `AddTwoInts` service type. -/
structure AddTwoInts.Request where
  a : Int
  b : Int
  deriving DecidableEq, Repr, Inhabited

/-- The response of the `AddTwoInts` service type. -/
structure AddTwoInts.Response where
  sum : Int
  deriving DecidableEq, Repr, Inhabited

/-- The request identifier of `rmw`: the writer and the sequence number of the request. -/
structure rmw_request_id_t where
  writer_guid : List Int
  sequence_number : Int
  deriving DecidableEq, Repr, Inhabited

/-- The callback of the `add_two_ints` scenario: `response.sum = request.a + request.b`. -/
def handle_add_two_ints (request : AddTwoInts.Request) (response : AddTwoInts.Response) :
    AddTwoInts.Request × AddTwoInts.Response × Except Exception Unit :=
  (request, { response with sum := request.a + request.b }, .ok ())

/-- A callback registered with identifier that computes the sum and also writes sequence
number 0 into the identifier it was handed. -/
def handle_and_renumber (request_header : rmw_request_id_t) (request : AddTwoInts.Request)
    (response : AddTwoInts.Response) :
    rmw_request_id_t × AddTwoInts.Request × AddTwoInts.Response × Except Exception Unit :=
  ({ request_header with sequence_number := 0 }, request,
    { response with sum := request.a + request.b }, .ok ())

/-- A callback that throws without touching its arguments. -/
def handle_and_throw (request : AddTwoInts.Request) (response : AddTwoInts.Response) :
    AddTwoInts.Request × AddTwoInts.Response × Except Exception Unit :=
  (request, response, .error (.user_fault "callback fault"))

/-- A service named `add_two_ints` on service handle 7, constructed without an allocator;
allocator states are numbers. -/
def add_two_ints : Service Nat AddTwoInts.Request AddTwoInts.Response rmw_request_id_t :=
  Service.create 7 "add_two_ints" (.shared_ptr_callback handle_add_two_ints) none

/-- The service of `add_two_ints` with the renumbering callback registered. -/
def renumbering : Service Nat AddTwoInts.Request AddTwoInts.Response rmw_request_id_t :=
  Service.create 7 "add_two_ints"
    (.shared_ptr_with_request_header_callback handle_and_renumber) none

/-- The service of `add_two_ints` with the throwing callback registered. -/
def throwing : Service Nat AddTwoInts.Request AddTwoInts.Response rmw_request_id_t :=
  Service.create 7 "add_two_ints" (.shared_ptr_callback handle_and_throw) none

/-- An identifier as the transport fills it in for an incoming request. -/
def incoming_id : rmw_request_id_t :=
  { writer_guid := [1, 2, 3], sequence_number := 42 }

/-- A world in which a request has arrived: the identifier sits in the storage made by
`create_request_header` (handle 0), the request 2, 3 in the storage made by `create_request`
(handle 1), and nothing has been sent. -/
def arrived : World Nat AddTwoInts.Request AddTwoInts.Response rmw_request_id_t :=
  { heap :=
      [⟨add_two_ints.header_allocator_, Object.request_id incoming_id⟩,
       ⟨add_two_ints.request_allocator_, Object.request { a := 2, b := 3 }⟩]
    sent := [] }

/-- A transport whose send always succeeds. -/
def rmw_succeeding : Rmw AddTwoInts.Response rmw_request_id_t :=
  { rmw_send_response := fun _ _ => RMW_RET_OK
    rmw_get_error_string_safe := "" }

/-- A transport whose send always fails with status 1. -/
def rmw_failing : Rmw AddTwoInts.Response rmw_request_id_t :=
  { rmw_send_response := fun _ _ => 1
    rmw_get_error_string_safe := "no reader" }

end service

namespace executors

namespace multi_threaded_executor

/-- The state of a `MultiThreadedExecutor` object that the embedded members use. -/
structure MultiThreadedExecutor where
  number_of_threads_ : Nat
  deriving DecidableEq, Repr

/-- The constructor of `MultiThreadedExecutor`; `hardware_concurrency` is the value returned by
`std::thread::hardware_concurrency()`. -/
def MultiThreadedExecutor.create (hardware_concurrency : Nat) : MultiThreadedExecutor :=
  let number_of_threads_ := hardware_concurrency
  if number_of_threads_ = 0 then
    { number_of_threads_ := 1 }
  else
    { number_of_threads_ := number_of_threads_ }

/-- The embedding of `MultiThreadedExecutor::get_number_of_threads`. -/
def MultiThreadedExecutor.get_number_of_threads (self : MultiThreadedExecutor) : Nat :=
  self.number_of_threads_

/-- What `run` consumes from outside the class: `ok k` is the value returned by the `k`-th call
of `rclcpp::utilities::ok()`, `get_next_executable k` the executable returned by the `k`-th
call of `Executor::get_next_executable()`, and `execute_any_executable` tells whether executing
an executable returns or throws. -/
structure Env (α : Type) where
  ok : Nat → Bool
  get_next_executable : Nat → α
  execute_any_executable : α → Except Exception Unit

/-- The observable actions of one worker inside `run`. -/
inductive Event (α : Type) where
  /-- A call of `rclcpp::utilities::ok()` and the value it returned. -/
  | ok (result : Bool)
  /-- The `std::lock_guard` on `wait_mutex_` is constructed: the mutex is acquired. -/
  | lock
  /-- The call `get_next_executable()` and the executable it returned. -/
  | get_next_executable (any_exec : α)
  /-- The `std::lock_guard` is destroyed: the mutex is released. -/
  | unlock
  /-- The call `execute_any_executable(any_exec)`. -/
  | execute_any_executable (any_exec : α)
  deriving DecidableEq, Repr

/-- The embedding of `MultiThreadedExecutor::run` for one worker that is not contended on the
mutex.  `fuel` bounds the number of loop iterations, `ok_calls` and `selections` count the
calls of `ok()` and `get_next_executable()` made so far.  The result is the trace of the
worker together with `some (.ok ())` when `run` returned, `some (.error e)` when the
exception `e` left `run`, and `none` when the worker is still looping after `fuel` iterations.
The assignment to the thread-local `rclcpp::thread_id` has no effect on the loop. -/
def run {α : Type} (env : Env α) :
    Nat → Nat → Nat → List (Event α) × Option (Except Exception Unit)
  | 0, _, _ => ([], none)
  | fuel + 1, ok_calls, selections =>
    -- while (rclcpp::utilities::ok())
    if env.ok ok_calls = false then
      ([.ok false], some (.ok ()))
    else
      -- std::lock_guard<std::mutex> wait_lock(wait_mutex_); if (!rclcpp::utilities::ok())
      if env.ok (ok_calls + 1) = false then
        -- return; (the guard releases the mutex)
        ([.ok true, .lock, .ok false, .unlock], some (.ok ()))
      else
        -- any_exec = get_next_executable();
        let any_exec := env.get_next_executable selections
        let iteration : List (Event α) :=
          [.ok true, .lock, .ok true, .get_next_executable any_exec, .unlock,
            .execute_any_executable any_exec]
        -- execute_any_executable(any_exec);
        match env.execute_any_executable any_exec with
        | .error e => (iteration, some (.error e))
        | .ok () =>
          let rest := run env fuel (ok_calls + 2) (selections + 1)
          (iteration ++ rest.1, rest.2)

/-- Whether the worker holds `wait_mutex_` after the events of `trace`. -/
def holds_mutex_after {α : Type} : List (Event α) → Bool → Bool
  | [], held => held
  | .lock :: rest, _ => holds_mutex_after rest true
  | .unlock :: rest, _ => holds_mutex_after rest false
  | _ :: rest, held => holds_mutex_after rest held

/-- The executables returned by `get_next_executable()` in a trace, in order. -/
def selected {α : Type} : List (Event α) → List α
  | [] => []
  | .get_next_executable a :: rest => a :: selected rest
  | _ :: rest => selected rest

/-- The executables passed to `execute_any_executable` in a trace, in order. -/
def executed {α : Type} : List (Event α) → List α
  | [] => []
  | .execute_any_executable a :: rest => a :: executed rest
  | _ :: rest => executed rest

/-- The events of a trace other than the calls of `ok()`. -/
def lock_events {α : Type} : List (Event α) → List (Event α)
  | [] => []
  | .ok _ :: rest => lock_events rest
  | e :: rest => e :: lock_events rest

/-- The threads of a spinning executor: the thread that called `spin` and the workers, named by
their position in the vector `threads` of `spin`. -/
inductive Thread where
  | spin
  | worker (index : Nat)
  deriving DecidableEq, Repr

/-- The control points of a worker inside `run`. -/
inductive RunPc (α : Type) where
  /-- About to evaluate the loop condition `rclcpp::utilities::ok()`. -/
  | while_ok
  /-- About to construct the `std::lock_guard` (waiting for `wait_mutex_`). -/
  | lock_guard
  /-- Holding the mutex, about to evaluate `!rclcpp::utilities::ok()`. -/
  | if_not_ok
  /-- Holding the mutex, about to call `get_next_executable()`. -/
  | get_next_executable
  /-- Holding the mutex with `any_exec` assigned, about to leave the guarded scope. -/
  | end_of_scope (any_exec : α)
  /-- Outside the guarded scope, about to call `execute_any_executable(any_exec)`. -/
  | execute_any_executable (any_exec : α)
  /-- The function `run` has returned. -/
  | returned
  /-- An exception has left `run`. -/
  | thrown (e : Exception)
  deriving DecidableEq, Repr

/-- Whether a worker at this control point is between acquiring and releasing
`wait_mutex_`. -/
def RunPc.in_selection {α : Type} : RunPc α → Bool
  | .if_not_ok => true
  | .get_next_executable => true
  | .end_of_scope _ => true
  | _ => false

/-- The control points of the thread inside `spin`. -/
inductive SpinPc where
  /-- About to construct the `std::lock_guard` of `spin`. -/
  | lock_guard
  /-- Holding the mutex at the head of the launch loop, with loop counter `i` and next
  thread id `thread_id_`. -/
  | for_loop (i : Nat) (thread_id_ : Nat)
  /-- Holding the mutex, about to leave the guarded scope. -/
  | end_of_scope
  /-- About to join the thread at position `k` of `threads`. -/
  | join (k : Nat)
  /-- The function `spin` has returned. -/
  | returned
  deriving DecidableEq, Repr

/-- Whether the thread inside `spin` is between acquiring and releasing `wait_mutex_`. -/
def SpinPc.holds_mutex : SpinPc → Bool
  | .for_loop _ _ => true
  | .end_of_scope => true
  | _ => false

/-- A launched worker thread: the argument it was bound to and where it stands in `run`. -/
structure Worker (α : Type) where
  this_thread_id : Nat
  pc : RunPc α
  deriving DecidableEq, Repr

/-- The state of a spinning executor: `wait_mutex_` (`none` when free, otherwise its holder),
the thread inside `spin`, the launched workers, and the numbers of calls made so far of
`ok()` and of `get_next_executable()`. -/
structure Pool (α : Type) where
  number_of_threads_ : Nat
  wait_mutex_ : Option Thread
  spin : SpinPc
  threads : List (Worker α)
  ok_calls : Nat
  selections : Nat
  deriving DecidableEq, Repr

/-- The state in which `spin()` is entered on an executor. -/
def Pool.init {α : Type} (self : MultiThreadedExecutor) : Pool α :=
  { number_of_threads_ := self.number_of_threads_
    wait_mutex_ := none
    spin := .lock_guard
    threads := []
    ok_calls := 0
    selections := 0 }

/-- One step of the thread inside `spin`; `none` when it cannot move (blocked or finished). -/
def Pool.spin_step {α : Type} (s : Pool α) : Option (Pool α) :=
  match s.spin with
  | .lock_guard =>
    -- std::lock_guard<std::mutex> wait_lock(wait_mutex_); size_t thread_id_ = 1;
    match s.wait_mutex_ with
    | none =>
      some { s with wait_mutex_ := some .spin, spin := .for_loop s.number_of_threads_ 1 }
    | some _ => none
  | .for_loop i thread_id_ =>
    -- for (size_t i = number_of_threads_; i > 0; --i)
    if i > 0 then
      -- threads.emplace_back(std::bind(&MultiThreadedExecutor::run, this, thread_id_++));
      some { s with
        threads := s.threads ++ [{ this_thread_id := thread_id_, pc := .while_ok }]
        spin := .for_loop (i - 1) (thread_id_ + 1) }
    else
      some { s with spin := .end_of_scope }
  | .end_of_scope => some { s with wait_mutex_ := none, spin := .join 0 }
  | .join k =>
    -- for (auto & thread : threads) thread.join();
    match s.threads[k]? with
    | none => some { s with spin := .returned }
    | some w =>
      match w.pc with
      | .returned => some { s with spin := .join (k + 1) }
      | _ => none
  | .returned => none

/-- One step of the worker at position `j` inside `run`; `none` when it cannot move. -/
def Pool.worker_step {α : Type} (env : Env α) (s : Pool α) (j : Nat) : Option (Pool α) :=
  match s.threads[j]? with
  | none => none
  | some w =>
    match w.pc with
    | .while_ok =>
      -- while (rclcpp::utilities::ok())
      if env.ok s.ok_calls then
        some { s with
          ok_calls := s.ok_calls + 1
          threads := s.threads.set j { w with pc := .lock_guard } }
      else
        some { s with
          ok_calls := s.ok_calls + 1
          threads := s.threads.set j { w with pc := .returned } }
    | .lock_guard =>
      -- std::lock_guard<std::mutex> wait_lock(wait_mutex_);
      match s.wait_mutex_ with
      | none =>
        some { s with
          wait_mutex_ := some (.worker j)
          threads := s.threads.set j { w with pc := .if_not_ok } }
      | some _ => none
    | .if_not_ok =>
      -- if (!rclcpp::utilities::ok()) return;
      if env.ok s.ok_calls then
        some { s with
          ok_calls := s.ok_calls + 1
          threads := s.threads.set j { w with pc := .get_next_executable } }
      else
        some { s with
          ok_calls := s.ok_calls + 1
          wait_mutex_ := none
          threads := s.threads.set j { w with pc := .returned } }
    | .get_next_executable =>
      -- any_exec = get_next_executable();
      some { s with
        selections := s.selections + 1
        threads := s.threads.set j
          { w with pc := .end_of_scope (env.get_next_executable s.selections) } }
    | .end_of_scope any_exec =>
      some { s with
        wait_mutex_ := none
        threads := s.threads.set j { w with pc := .execute_any_executable any_exec } }
    | .execute_any_executable any_exec =>
      -- execute_any_executable(any_exec);
      match env.execute_any_executable any_exec with
      | .ok () => some { s with threads := s.threads.set j { w with pc := .while_ok } }
      | .error e => some { s with threads := s.threads.set j { w with pc := .thrown e } }
    | .returned => none
    | .thrown _ => none

/-- One step of the chosen thread. -/
def Pool.step {α : Type} (env : Env α) (s : Pool α) : Thread → Option (Pool α)
  | .spin => s.spin_step
  | .worker j => s.worker_step env j

/-- The state reached by letting the threads move in the order of `schedule`; `none` when the
schedule asks a thread to move that cannot. -/
def Pool.exec {α : Type} (env : Env α) : List Thread → Pool α → Option (Pool α)
  | [], s => some s
  | t :: schedule, s =>
    match s.step env t with
    | none => none
    | some s1 => Pool.exec env schedule s1

/-- The number of workers that are between acquiring and releasing `wait_mutex_`. -/
def Pool.workers_in_selection {α : Type} (s : Pool α) : Nat :=
  (s.threads.filter (fun w => w.pc.in_selection)).length

/-- The mutex records its holder: when the thread inside `spin` is between acquiring and
releasing `wait_mutex_` it is the recorded holder, and so is every worker that is between
acquiring and releasing it. -/
def Pool.holders_recorded {α : Type} (s : Pool α) : Prop :=
  (s.spin.holds_mutex = true → s.wait_mutex_ = some Thread.spin)
  ∧ ∀ (j : Nat) (w : Worker α), s.threads[j]? = some w → w.pc.in_selection = true →
      s.wait_mutex_ = some (Thread.worker j)

/-- The schedule in which `spin` launches its workers and releases the mutex, the first worker
enters its loop and acquires the mutex, and the second worker enters its loop. -/
def contended_schedule : List Thread :=
  List.replicate 5 Thread.spin ++ [Thread.worker 0, Thread.worker 0, Thread.worker 1]

/-- An environment in which shutdown is never signalled, the executables are numbered in the
order of their selection, and executing executable 1 throws. -/
def faulting_env : Env Nat :=
  { ok := fun _ => true
    get_next_executable := fun k => k
    execute_any_executable := fun a =>
      if a = 1 then .error (.user_fault "callback fault") else .ok () }

/-- An environment in which `ok()` returns true three times and false from then on, the
executables are numbered in the order of their selection, and no execution throws. -/
def stopping_env : Env Nat :=
  { ok := fun k => decide (k < 3)
    get_next_executable := fun k => k
    execute_any_executable := fun _ => .ok () }

/-- The schedule in which `spin` launches its workers and releases the mutex, and then the
first worker alone runs two full iterations of its loop. -/
def first_worker_schedule : List Thread :=
  List.replicate 5 Thread.spin ++ List.replicate 12 (Thread.worker 0)

end multi_threaded_executor

end executors

end rclcpp

namespace rclcpp

namespace allocator

/-- Reading past a prefix reads the appended part. -/
theorem getElem?_append_length_add {β : Type} (l rest : List β) (k : Nat) :
    (l ++ rest)[l.length + k]? = rest[k]? := by
  rw [List.getElem?_append_right (Nat.le_add_right _ _)]
  simp

/-- The first of three blocks appended one by one. -/
theorem getElem?_three_fst {β : Type} (l : List β) (a b c : β) :
    (l ++ [a] ++ [b] ++ [c])[l.length]? = some a := by
  have := getElem?_append_length_add l [a, b, c] 0
  simpa using this

/-- The second of three blocks appended one by one. -/
theorem getElem?_three_snd {β : Type} (l : List β) (a b c : β) :
    (l ++ [a] ++ [b] ++ [c])[(l ++ [a]).length]? = some b := by
  have := getElem?_append_length_add l [a, b, c] 1
  simpa using this

/-- The third of three blocks appended one by one. -/
theorem getElem?_three_trd {β : Type} (l : List β) (a b c : β) :
    (l ++ [a] ++ [b] ++ [c])[(l ++ [a] ++ [b]).length]? = some c := by
  have := getElem?_append_length_add l [a, b, c] 2
  simpa using this

/-- Overwriting the three appended blocks, the second first, then the first, then the third. -/
theorem set_three {β : Type} (a b c a1 b1 c1 : β) :
    ∀ (l : List β),
      (((l ++ [a] ++ [b] ++ [c]).set (l ++ [a]).length b1).set l.length a1).set
        (l ++ [a] ++ [b]).length c1 = l ++ [a1, b1, c1]
  | [] => rfl
  | x :: l => by
    have ih := set_three a b c a1 b1 c1 l
    simp only [List.cons_append, List.length_cons, List.set_cons_succ, List.cons.injEq,
      true_and]
    exact ih

/-- The second of three appended blocks, read from the flat list. -/
theorem getElem?_flat_snd {β : Type} (l : List β) (a b c x : β) :
    (l ++ [a, b, c])[(l ++ [x]).length]? = some b := by
  have := getElem?_append_length_add l [a, b, c] 1
  simpa using this

/-- The third of three appended blocks, read from the flat list. -/
theorem getElem?_flat_trd {β : Type} (l : List β) (a b c x y : β) :
    (l ++ [a, b, c])[(l ++ [x] ++ [y]).length]? = some c := by
  have := getElem?_append_length_add l [a, b, c] 2
  simpa using this

/-- A handle that can be read lies inside the log. -/
theorem lt_length_of_getElem? {β : Type} (l : List β) (p : Nat) (b : β)
    (h : l[p]? = some b) : p < l.length := by
  rcases Nat.lt_or_ge p l.length with h1 | h1
  · exact h1
  · rw [List.getElem?_eq_none h1] at h; cases h

/-- A cast of a handle that points to a `T` is one allocation through `alloc` holding a copy of
the object. -/
theorem allocator_static_pointer_cast_eq {Alloc Req Resp Hdr T : Type}
    (view : Object Req Resp Hdr → Option T) (wrap : T → Object Req Resp Hdr)
    (p : Nat) (alloc : Rebound Alloc) (heap : Heap Alloc Req Resp Hdr)
    (blk : Block Alloc Req Resp Hdr) (v : T)
    (hp : heap[p]? = some blk) (hv : view blk.obj = some v) :
    allocator_static_pointer_cast view wrap p alloc heap
      = some (heap ++ [⟨alloc, wrap v⟩], heap.length) := by
  simp [allocator_static_pointer_cast, allocate_shared, hp, hv]

end allocator

namespace service

open allocator

/-- What `send_response` does on handles that point to an identifier and a response. -/
theorem send_response_eq {Alloc Req Resp Hdr : Type}
    (self : Service Alloc Req Resp Hdr) (rmw : Rmw Resp Hdr) (req_id response : Nat)
    (w : World Alloc Req Resp Hdr) (hb rb : Block Alloc Req Resp Hdr) (h : Hdr) (r : Resp)
    (hh : w.heap[req_id]? = some hb) (hh1 : hb.obj.asRequestId = some h)
    (hr : w.heap[response]? = some rb) (hr1 : rb.obj.asResponse = some r) :
    self.send_response rmw req_id response w =
      some (⟨w.heap, w.sent ++ [⟨self.service_handle_, h, r⟩]⟩,
        if rmw.rmw_send_response w.sent ⟨self.service_handle_, h, r⟩ ≠ RMW_RET_OK then
          .error (.runtime_error
            ("failed to send response: " ++ rmw.rmw_get_error_string_safe))
        else .ok ()) := by
  unfold Service.send_response
  rw [hh, hr]
  simp only [hh1, hr1]
  split <;> rfl

/-- The storage `handle_request` adds: a copy of the request and a copy of the identifier, both
through the request allocator, and the response through the response allocator; the callback
gets the copies and the fresh response and leaves them in new states; unless the callback
throws, the identifier copy and the response, as the callback left them, are sent. -/
theorem handle_request_eq {Alloc Req Resp Hdr : Type} [Inhabited Resp]
    (self : Service Alloc Req Resp Hdr) (rmw : Rmw Resp Hdr)
    (request_header request : Nat) (w : World Alloc Req Resp Hdr)
    (hb qb : Block Alloc Req Resp Hdr) (h : Hdr) (q : Req)
    (hh : w.heap[request_header]? = some hb) (hh1 : hb.obj.asRequestId = some h)
    (hq : w.heap[request]? = some qb) (hq1 : qb.obj.asRequest = some q) :
    self.handle_request rmw request_header request w =
      match (self.any_callback_.invoke h q default).outcome with
      | .error e =>
        some (⟨w.heap ++
            [⟨self.request_allocator_,
                Object.request (self.any_callback_.invoke h q default).request⟩,
             ⟨self.request_allocator_,
                Object.request_id (self.any_callback_.invoke h q default).request_header⟩,
             ⟨self.response_allocator_,
                Object.response (self.any_callback_.invoke h q default).response⟩],
          w.sent⟩, .error e)
      | .ok _ =>
        some (⟨w.heap ++
            [⟨self.request_allocator_,
                Object.request (self.any_callback_.invoke h q default).request⟩,
             ⟨self.request_allocator_,
                Object.request_id (self.any_callback_.invoke h q default).request_header⟩,
             ⟨self.response_allocator_,
                Object.response (self.any_callback_.invoke h q default).response⟩],
          w.sent ++ [⟨self.service_handle_,
            (self.any_callback_.invoke h q default).request_header,
            (self.any_callback_.invoke h q default).response⟩]⟩,
          if rmw.rmw_send_response w.sent ⟨self.service_handle_,
              (self.any_callback_.invoke h q default).request_header,
              (self.any_callback_.invoke h q default).response⟩ ≠ RMW_RET_OK then
            .error (.runtime_error
              ("failed to send response: " ++ rmw.rmw_get_error_string_safe))
          else .ok ()) := by
  have hlt : request_header < w.heap.length := lt_length_of_getElem? _ _ _ hh
  unfold Service.handle_request
  rw [allocator_static_pointer_cast_eq _ _ _ _ _ qb q hq hq1]
  simp only
  rw [allocator_static_pointer_cast_eq Object.asRequestId _ _ _ _ hb h
    (by rw [List.getElem?_append_left hlt]; exact hh) hh1]
  simp only [allocate_shared, AnyServiceCallback.dispatch]
  rw [getElem?_three_fst, getElem?_three_snd, getElem?_three_trd]
  simp only [Object.asRequestId, Object.asRequest, Object.asResponse, set_three]
  cases hout : (self.any_callback_.invoke h q default).outcome with
  | error e => rfl
  | ok u =>
    simp only
    rw [send_response_eq self rmw _ _ _
      ⟨self.request_allocator_,
        Object.request_id (self.any_callback_.invoke h q default).request_header⟩
      ⟨self.response_allocator_,
        Object.response (self.any_callback_.invoke h q default).response⟩
      (self.any_callback_.invoke h q default).request_header
      (self.any_callback_.invoke h q default).response
      (getElem?_flat_snd _ _ _ _ _) rfl (getElem?_flat_trd _ _ _ _ _ _) rfl]

/-- C1, as stated, fails: with a transport whose send always succeeds, the service with the
renumbering callback sends the identifier as that callback left it, sequence number 0, which is
not the sequence number 42 of the input header; and the service with the throwing callback
makes no send at all. -/
theorem handle_request_sends_rewritten_id_at_arrived :
    (renumbering.handle_request rmw_succeeding 0 1 arrived).map (fun res => res.1.sent)
      = some [⟨7, { writer_guid := [1, 2, 3], sequence_number := 0 }, { sum := 5 }⟩]
    ∧ arrived.heap[0]? = some ⟨renumbering.header_allocator_, Object.request_id incoming_id⟩
    ∧ incoming_id.sequence_number = 42
    ∧ (throwing.handle_request rmw_succeeding 0 1 arrived).map (fun res => res.1.sent)
      = some [] := by
  decide

/-- C1, amended: for handles that point to an identifier and a request, when the callback
returns and the transport send reports success, `handle_request` returns normally having called
the transport send exactly once, and that call carries the service handle, the identifier
object that was handed to the callback (a copy of the one behind the input header handle) in
the state the callback left it, and the response object that was handed to the callback in the
state the callback left it; a callback registered without identifier leaves the identifier as
it came in, so then the send carries the identifier of the input header; when the callback
throws, no send is made and the exception leaves `handle_request`. -/
theorem handle_request_sends_exactly_once {Alloc Req Resp Hdr : Type} [Inhabited Resp]
    (self : Service Alloc Req Resp Hdr) (rmw : Rmw Resp Hdr)
    (request_header request : Nat) (w : World Alloc Req Resp Hdr)
    (hb qb : Block Alloc Req Resp Hdr) (h : Hdr) (q : Req)
    (hh : w.heap[request_header]? = some hb) (hh1 : hb.obj.asRequestId = some h)
    (hq : w.heap[request]? = some qb) (hq1 : qb.obj.asRequest = some q) :
    ((self.any_callback_.invoke h q default).outcome = .ok () →
      rmw.rmw_send_response w.sent ⟨self.service_handle_,
        (self.any_callback_.invoke h q default).request_header,
        (self.any_callback_.invoke h q default).response⟩ = RMW_RET_OK →
      ∃ heap1, self.handle_request rmw request_header request w
          = some (⟨heap1, w.sent ++ [⟨self.service_handle_,
              (self.any_callback_.invoke h q default).request_header,
              (self.any_callback_.invoke h q default).response⟩]⟩, .ok ())
        ∧ heap1[w.heap.length + 1]? = some ⟨self.request_allocator_,
            Object.request_id (self.any_callback_.invoke h q default).request_header⟩
        ∧ heap1[w.heap.length + 2]? = some ⟨self.response_allocator_,
            Object.response (self.any_callback_.invoke h q default).response⟩)
    ∧ (∀ f, self.any_callback_ = .shared_ptr_callback f →
        (self.any_callback_.invoke h q default).request_header = h)
    ∧ (∀ e, (self.any_callback_.invoke h q default).outcome = .error e →
        ∃ heap1, self.handle_request rmw request_header request w
          = some (⟨heap1, w.sent⟩, .error e)) := by
  refine ⟨?_, ?_, ?_⟩
  · intro hout hsend
    refine ⟨w.heap ++
      [⟨self.request_allocator_,
          Object.request (self.any_callback_.invoke h q default).request⟩,
       ⟨self.request_allocator_,
          Object.request_id (self.any_callback_.invoke h q default).request_header⟩,
       ⟨self.response_allocator_,
          Object.response (self.any_callback_.invoke h q default).response⟩], ?_, ?_, ?_⟩
    · rw [handle_request_eq self rmw request_header request w hb qb h q hh hh1 hq hq1, hout]
      simp [hsend]
    · rw [getElem?_append_length_add]
      rfl
    · rw [getElem?_append_length_add]
      rfl
  · intro f hf
    rw [hf]
    rfl
  · intro e hout
    refine ⟨w.heap ++
      [⟨self.request_allocator_,
          Object.request (self.any_callback_.invoke h q default).request⟩,
       ⟨self.request_allocator_,
          Object.request_id (self.any_callback_.invoke h q default).request_header⟩,
       ⟨self.response_allocator_,
          Object.response (self.any_callback_.invoke h q default).response⟩], ?_⟩
    rw [handle_request_eq self rmw request_header request w hb qb h q hh hh1 hq hq1, hout]

/-- C1, amended, the `add_two_ints` scenario: the request 2, 3 produces one send carrying the
sum 5 and the identifier that came in, the callback registered without identifier leaves the
identifier as it came in, and with the throwing callback nothing is sent and the fault leaves
`handle_request`. -/
theorem handle_request_sends_exactly_once_witness :
    (∃ heap1, add_two_ints.handle_request rmw_succeeding 0 1 arrived
        = some (⟨heap1, [⟨7, incoming_id, { sum := 5 }⟩]⟩, .ok ())
      ∧ heap1[3]? = some ⟨add_two_ints.request_allocator_, Object.request_id incoming_id⟩
      ∧ heap1[4]? = some ⟨add_two_ints.response_allocator_, Object.response { sum := 5 }⟩)
    ∧ (add_two_ints.any_callback_.invoke incoming_id { a := 2, b := 3 } default).request_header
        = incoming_id
    ∧ (∃ heap1, throwing.handle_request rmw_succeeding 0 1 arrived
        = some (⟨heap1, []⟩, .error (.user_fault "callback fault"))) :=
  ⟨(handle_request_sends_exactly_once add_two_ints rmw_succeeding 0 1 arrived
      ⟨add_two_ints.header_allocator_, Object.request_id incoming_id⟩
      ⟨add_two_ints.request_allocator_, Object.request { a := 2, b := 3 }⟩
      incoming_id { a := 2, b := 3 } rfl rfl rfl rfl).1 rfl rfl,
   (handle_request_sends_exactly_once add_two_ints rmw_succeeding 0 1 arrived
      ⟨add_two_ints.header_allocator_, Object.request_id incoming_id⟩
      ⟨add_two_ints.request_allocator_, Object.request { a := 2, b := 3 }⟩
      incoming_id { a := 2, b := 3 } rfl rfl rfl rfl).2.1 handle_add_two_ints rfl,
   (handle_request_sends_exactly_once throwing rmw_succeeding 0 1 arrived
      ⟨throwing.header_allocator_, Object.request_id incoming_id⟩
      ⟨throwing.request_allocator_, Object.request { a := 2, b := 3 }⟩
      incoming_id { a := 2, b := 3 } rfl rfl rfl rfl).2.2 (.user_fault "callback fault") rfl⟩

/-- C2: `send_response` calls the transport send exactly once whatever the status, and it
throws (a `std::runtime_error`) if and only if the status is not `RMW_RET_OK`; when the send
fails inside `handle_request`, that same error leaves `handle_request`, after the one send. -/
theorem send_response_throws_iff_not_ok {Alloc Req Resp Hdr : Type} [Inhabited Resp]
    (self : Service Alloc Req Resp Hdr) (rmw : Rmw Resp Hdr) :
    (∀ (w : World Alloc Req Resp Hdr) (req_id response : Nat)
        (hb rb : Block Alloc Req Resp Hdr) (h : Hdr) (r : Resp),
        w.heap[req_id]? = some hb → hb.obj.asRequestId = some h →
        w.heap[response]? = some rb → rb.obj.asResponse = some r →
        ∃ res, self.send_response rmw req_id response w
            = some (⟨w.heap, w.sent ++ [⟨self.service_handle_, h, r⟩]⟩, res)
          ∧ (res = .error (.runtime_error
                ("failed to send response: " ++ rmw.rmw_get_error_string_safe))
              ↔ rmw.rmw_send_response w.sent ⟨self.service_handle_, h, r⟩ ≠ RMW_RET_OK)
          ∧ (res = .ok ()
              ↔ rmw.rmw_send_response w.sent ⟨self.service_handle_, h, r⟩ = RMW_RET_OK))
    ∧ (∀ (w : World Alloc Req Resp Hdr) (request_header request : Nat)
        (hb qb : Block Alloc Req Resp Hdr) (h : Hdr) (q : Req) (h1 : Hdr) (r1 : Resp),
        w.heap[request_header]? = some hb → hb.obj.asRequestId = some h →
        w.heap[request]? = some qb → qb.obj.asRequest = some q →
        (self.any_callback_.invoke h q default).outcome = .ok () →
        (self.any_callback_.invoke h q default).request_header = h1 →
        (self.any_callback_.invoke h q default).response = r1 →
        rmw.rmw_send_response w.sent ⟨self.service_handle_, h1, r1⟩ ≠ RMW_RET_OK →
        ∃ heap1, self.handle_request rmw request_header request w
          = some (⟨heap1, w.sent ++ [⟨self.service_handle_, h1, r1⟩]⟩,
              .error (.runtime_error
                ("failed to send response: " ++ rmw.rmw_get_error_string_safe)))) := by
  constructor
  · intro w req_id response hb rb h r hh hh1 hr hr1
    refine ⟨_, send_response_eq self rmw req_id response w hb rb h r hh hh1 hr hr1, ?_, ?_⟩
    · by_cases hs : rmw.rmw_send_response w.sent ⟨self.service_handle_, h, r⟩ = RMW_RET_OK
      · simp [hs]
      · simp [hs]
    · by_cases hs : rmw.rmw_send_response w.sent ⟨self.service_handle_, h, r⟩ = RMW_RET_OK
      · simp [hs]
      · simp [hs]
  · intro w request_header request hb qb h q h1 r1 hh hh1 hq hq1 hout hh2 hr2 hs
    refine ⟨w.heap ++
      [⟨self.request_allocator_,
          Object.request (self.any_callback_.invoke h q default).request⟩,
       ⟨self.request_allocator_, Object.request_id h1⟩,
       ⟨self.response_allocator_, Object.response r1⟩], ?_⟩
    rw [handle_request_eq self rmw request_header request w hb qb h q hh hh1 hq hq1, hout]
    simp only [hh2, hr2]
    simp [hs]

/-- C2 on the `add_two_ints` service with a failing transport: `send_response` on the arrived
identifier and a response makes one send and throws, and `handle_request` makes one send and
lets the error out. -/
theorem send_response_throws_iff_not_ok_witness :
    (∃ res, add_two_ints.send_response rmw_failing 0 1
          ⟨[⟨add_two_ints.header_allocator_, Object.request_id incoming_id⟩,
            ⟨add_two_ints.response_allocator_, Object.response { sum := 9 }⟩], []⟩
        = some (⟨[⟨add_two_ints.header_allocator_, Object.request_id incoming_id⟩,
            ⟨add_two_ints.response_allocator_, Object.response { sum := 9 }⟩],
            [⟨7, incoming_id, { sum := 9 }⟩]⟩, res)
      ∧ (res = .error (.runtime_error ("failed to send response: " ++ "no reader"))
          ↔ (1 : rmw_ret_t) ≠ RMW_RET_OK)
      ∧ (res = .ok () ↔ (1 : rmw_ret_t) = RMW_RET_OK))
    ∧ (∃ heap1, add_two_ints.handle_request rmw_failing 0 1 arrived
        = some (⟨heap1, [⟨7, incoming_id, { sum := 5 }⟩]⟩,
            .error (.runtime_error ("failed to send response: " ++ "no reader")))) :=
  ⟨(send_response_throws_iff_not_ok add_two_ints rmw_failing).1
      ⟨[⟨add_two_ints.header_allocator_, Object.request_id incoming_id⟩,
        ⟨add_two_ints.response_allocator_, Object.response { sum := 9 }⟩], []⟩ 0 1
      ⟨add_two_ints.header_allocator_, Object.request_id incoming_id⟩
      ⟨add_two_ints.response_allocator_, Object.response { sum := 9 }⟩
      incoming_id { sum := 9 } rfl rfl rfl rfl,
   (send_response_throws_iff_not_ok add_two_ints rmw_failing).2 arrived 0 1
      ⟨add_two_ints.header_allocator_, Object.request_id incoming_id⟩
      ⟨add_two_ints.request_allocator_, Object.request { a := 2, b := 3 }⟩
      incoming_id { a := 2, b := 3 } incoming_id { sum := 5 }
      rfl rfl rfl rfl rfl rfl rfl (by decide)⟩

/-- C8, as stated, fails: casting the request handle 1 of the arrived world with the request
allocator does not give back the storage of handle 1; it makes one more allocation through the
allocator and returns handle 2, fresh storage holding a copy of the request. -/
theorem allocator_static_pointer_cast_allocates_at_arrived :
    allocator_static_pointer_cast Object.asRequest Object.request 1
        add_two_ints.request_allocator_ arrived.heap
      = some (arrived.heap ++
          [⟨add_two_ints.request_allocator_, Object.request { a := 2, b := 3 }⟩], 2)
    ∧ ¬ (allocator_static_pointer_cast Object.asRequest Object.request 1
          add_two_ints.request_allocator_ arrived.heap = some (arrived.heap, 1))
    ∧ allocations_through add_two_ints.request_allocator_ arrived.heap = 1
    ∧ allocations_through add_two_ints.request_allocator_ (arrived.heap ++
          [⟨add_two_ints.request_allocator_, Object.request { a := 2, b := 3 }⟩]) = 2 := by
  decide

/-- C8, amended: `allocator_static_pointer_cast<T>(p, alloc)` on a handle that points to a `T`
copies the object: it makes exactly one allocation through `alloc`, and the typed handle it
returns refers to fresh storage, distinct from the storage of `p`, that holds a copy of the
object behind `p`; every block that existed before, the one behind `p` included, is
unchanged. -/
theorem allocator_static_pointer_cast_copies {Alloc Req Resp Hdr T : Type} [DecidableEq Alloc]
    (view : Object Req Resp Hdr → Option T) (wrap : T → Object Req Resp Hdr)
    (p : Nat) (alloc : Rebound Alloc) (heap : Heap Alloc Req Resp Hdr)
    (blk : Block Alloc Req Resp Hdr) (v : T)
    (hp : heap[p]? = some blk) (hv : view blk.obj = some v) :
    ∃ heap1 q, allocator_static_pointer_cast view wrap p alloc heap = some (heap1, q)
      ∧ q ≠ p
      ∧ heap[q]? = none
      ∧ heap1[q]? = some ⟨alloc, wrap v⟩
      ∧ (∀ (i : Nat) (b : Block Alloc Req Resp Hdr), heap[i]? = some b → heap1[i]? = some b)
      ∧ heap1.length = heap.length + 1
      ∧ allocations_through alloc heap1 = allocations_through alloc heap + 1 := by
  have hlt : p < heap.length := lt_length_of_getElem? _ _ _ hp
  refine ⟨heap ++ [⟨alloc, wrap v⟩], heap.length,
    allocator_static_pointer_cast_eq view wrap p alloc heap blk v hp hv, ?_, ?_, ?_, ?_, ?_, ?_⟩
  · omega
  · exact List.getElem?_eq_none (le_refl _)
  · simp
  · intro i b hi
    rw [List.getElem?_append_left (lt_length_of_getElem? _ _ _ hi)]
    exact hi
  · simp
  · simp [allocations_through, List.filter_append]

/-- C8, amended, on the arrived world: the cast of the request handle 1 returns the fresh
handle 2 holding a copy of the request. -/
theorem allocator_static_pointer_cast_copies_witness :
    ∃ heap1 q, allocator_static_pointer_cast Object.asRequest Object.request 1
          add_two_ints.request_allocator_ arrived.heap = some (heap1, q)
      ∧ q ≠ 1
      ∧ arrived.heap[q]? = none
      ∧ heap1[q]? = some ⟨add_two_ints.request_allocator_, Object.request { a := 2, b := 3 }⟩
      ∧ (∀ (i : Nat) (b : Block Nat AddTwoInts.Request AddTwoInts.Response rmw_request_id_t),
          arrived.heap[i]? = some b → heap1[i]? = some b)
      ∧ heap1.length = arrived.heap.length + 1
      ∧ allocations_through add_two_ints.request_allocator_ heap1
          = allocations_through add_two_ints.request_allocator_ arrived.heap + 1 :=
  allocator_static_pointer_cast_copies Object.asRequest Object.request 1
    add_two_ints.request_allocator_ arrived.heap
    ⟨add_two_ints.request_allocator_, Object.request { a := 2, b := 3 }⟩ { a := 2, b := 3 }
    rfl rfl

/-- C9: for every service and every state of the memory, casting the handle just returned by
`create_request()` with the request allocator succeeds and yields a handle to a request whose
value is the default-initialized request, the same block (allocator and value) as a request
constructed directly with the request allocator. -/
theorem create_request_cast_round_trip {Alloc Req Resp Hdr : Type} [Inhabited Req]
    (self : Service Alloc Req Resp Hdr) (heap : Heap Alloc Req Resp Hdr) :
    ∃ heap2 q,
      allocator_static_pointer_cast Object.asRequest Object.request
          (self.create_request heap).2 self.request_allocator_ (self.create_request heap).1
        = some (heap2, q)
      ∧ (heap2[q]?).bind (fun b => b.obj.asRequest) = some default
      ∧ heap2[q]? =
          (allocate_shared self.request_allocator_ (Object.request default) heap).1[
            (allocate_shared self.request_allocator_ (Object.request default) heap).2]? := by
  have h0 : (heap ++ [(⟨self.request_allocator_, Object.request default⟩ :
      Block Alloc Req Resp Hdr)])[heap.length]?
      = some ⟨self.request_allocator_, Object.request default⟩ := by
    simp
  have h1 : ((heap ++ [(⟨self.request_allocator_, Object.request default⟩ :
      Block Alloc Req Resp Hdr)]) ++ [⟨self.request_allocator_, Object.request default⟩])[
        (heap ++ [(⟨self.request_allocator_, Object.request default⟩ :
          Block Alloc Req Resp Hdr)]).length]?
      = some ⟨self.request_allocator_, Object.request default⟩ := by
    have := getElem?_append_length_add (heap ++ [(⟨self.request_allocator_,
      Object.request default⟩ : Block Alloc Req Resp Hdr)])
      [(⟨self.request_allocator_, Object.request default⟩ : Block Alloc Req Resp Hdr)] 0
    simpa using this
  refine ⟨_, _, allocator_static_pointer_cast_eq Object.asRequest Object.request _ _ _
    ⟨self.request_allocator_, Object.request default⟩ default ?_ rfl, ?_, ?_⟩
  · exact h0
  · simp only [Service.create_request, allocate_shared]
    rw [h1]; rfl
  · simp only [Service.create_request, allocate_shared]
    rw [h1]; exact h0.symm

/-- C10, the code at the arrived world: the identifier object that `handle_request` works with
(handle 3) was allocated through the request allocator, which is not the header allocator,
while `create_request_header` allocates the identifier through the header allocator. -/
theorem handle_request_header_through_request_allocator :
    (add_two_ints.handle_request rmw_succeeding 0 1 arrived).map (fun res => res.1.heap[3]?)
      = some (some ⟨add_two_ints.request_allocator_, Object.request_id incoming_id⟩)
    ∧ add_two_ints.request_allocator_ ≠ add_two_ints.header_allocator_
    ∧ (add_two_ints.create_request_header []).1[(add_two_ints.create_request_header []).2]?
      = some ⟨add_two_ints.header_allocator_, Object.request_id default⟩ := by
  decide

end service

namespace executors

namespace multi_threaded_executor

/-- C7: whatever number of hardware execution contexts the platform reports, a newly constructed
executor has that number of threads when it is positive and one thread when it is zero; the
number of threads is always at least one. -/
theorem get_number_of_threads_create (hardware_concurrency : Nat) :
    (MultiThreadedExecutor.create hardware_concurrency).get_number_of_threads
        = (if hardware_concurrency > 0 then hardware_concurrency else 1)
    ∧ 1 ≤ (MultiThreadedExecutor.create hardware_concurrency).get_number_of_threads := by
  unfold MultiThreadedExecutor.create MultiThreadedExecutor.get_number_of_threads
  by_cases h : hardware_concurrency = 0
  · simp [h]
  · have hpos : hardware_concurrency > 0 := Nat.pos_of_ne_zero h
    simp [h, hpos]
    omega

/-- Splitting a list at an element that does not occur in a known prefix. -/
theorem append_eq_append_cons_of_not_mem {β : Type} (x : β) :
    ∀ (l1 rest pre post : List β), x ∉ l1 → l1 ++ rest = pre ++ x :: post →
      ∃ mid, pre = l1 ++ mid ∧ rest = mid ++ x :: post
  | [], rest, pre, post, _, h => ⟨pre, rfl, by simpa using h⟩
  | a :: l1, rest, [], post, hx, h => by
    simp only [List.cons_append, List.nil_append, List.cons.injEq] at h
    exact absurd h.1.symm (fun hxa => hx (by simp [hxa]))
  | a :: l1, rest, b :: pre, post, hx, h => by
    simp only [List.cons_append, List.cons.injEq] at h
    obtain ⟨mid, h1, h2⟩ := append_eq_append_cons_of_not_mem x l1 rest pre post
      (fun hmem => hx (List.mem_cons_of_mem _ hmem)) h.2
    exact ⟨mid, by rw [h.1, h1]; rfl, h2⟩

/-- The mutex state after two traces in a row. -/
theorem holds_mutex_after_append {α : Type} :
    ∀ (l1 l2 : List (Event α)) (held : Bool),
      holds_mutex_after (l1 ++ l2) held = holds_mutex_after l2 (holds_mutex_after l1 held)
  | [], _, _ => rfl
  | e :: l1, l2, held => by
    cases e <;> simp [holds_mutex_after, holds_mutex_after_append l1 l2]

/-- The loop of `run` ends at its head when `ok()` is false there. -/
theorem run_head_false {α : Type} (env : Env α) (fuel ok_calls selections : Nat)
    (h1 : env.ok ok_calls = false) :
    run env (fuel + 1) ok_calls selections = ([Event.ok false], some (.ok ())) := by
  simp [run, h1]

/-- The function `run` returns from inside the guarded scope when `ok()` is false there. -/
theorem run_recheck_false {α : Type} (env : Env α) (fuel ok_calls selections : Nat)
    (h1 : env.ok ok_calls = true) (h2 : env.ok (ok_calls + 1) = false) :
    run env (fuel + 1) ok_calls selections
      = ([Event.ok true, Event.lock, Event.ok false, Event.unlock], some (.ok ())) := by
  simp [run, h1, h2]

/-- An exception of the executed executable leaves `run`. -/
theorem run_throw {α : Type} (env : Env α) (fuel ok_calls selections : Nat) (e : Exception)
    (h1 : env.ok ok_calls = true) (h2 : env.ok (ok_calls + 1) = true)
    (h3 : env.execute_any_executable (env.get_next_executable selections) = .error e) :
    run env (fuel + 1) ok_calls selections
      = ([Event.ok true, Event.lock, Event.ok true,
          Event.get_next_executable (env.get_next_executable selections), Event.unlock,
          Event.execute_any_executable (env.get_next_executable selections)],
         some (.error e)) := by
  simp [run, h1, h2, h3]

/-- After an execution that returns, the loop of `run` goes round. -/
theorem run_continue {α : Type} (env : Env α) (fuel ok_calls selections : Nat)
    (h1 : env.ok ok_calls = true) (h2 : env.ok (ok_calls + 1) = true)
    (h3 : env.execute_any_executable (env.get_next_executable selections) = .ok ()) :
    run env (fuel + 1) ok_calls selections
      = ([Event.ok true, Event.lock, Event.ok true,
          Event.get_next_executable (env.get_next_executable selections), Event.unlock,
          Event.execute_any_executable (env.get_next_executable selections)]
          ++ (run env fuel (ok_calls + 2) (selections + 1)).1,
         (run env fuel (ok_calls + 2) (selections + 1)).2) := by
  simp [run, h1, h2, h3]

/-- The executions of a worker are its selections, in order. -/
theorem executed_run_eq_selected {α : Type} (env : Env α) :
    ∀ (fuel ok_calls selections : Nat),
      executed (run env fuel ok_calls selections).1
        = selected (run env fuel ok_calls selections).1
  | 0, _, _ => rfl
  | fuel + 1, ok_calls, selections => by
    cases h1 : env.ok ok_calls with
    | false => rw [run_head_false env fuel ok_calls selections h1]; rfl
    | true =>
      cases h2 : env.ok (ok_calls + 1) with
      | false => rw [run_recheck_false env fuel ok_calls selections h1 h2]; rfl
      | true =>
        cases h3 : env.execute_any_executable (env.get_next_executable selections) with
        | error e => rw [run_throw env fuel ok_calls selections e h1 h2 h3]; rfl
        | ok u =>
          rw [run_continue env fuel ok_calls selections h1 h2 h3]
          simp [executed, selected, executed_run_eq_selected env fuel]

/-- Without the calls of `ok()`, the trace of a worker is one block of lock, select, unlock,
execute per selected executable, possibly followed by a lock and unlock without selection. -/
theorem lock_events_run {α : Type} (env : Env α) :
    ∀ (fuel ok_calls selections : Nat),
      ∃ tail, lock_events (run env fuel ok_calls selections).1
          = (selected (run env fuel ok_calls selections).1).flatMap
              (fun a => [Event.lock, Event.get_next_executable a, Event.unlock,
                Event.execute_any_executable a]) ++ tail
        ∧ (tail = [] ∨ tail = [Event.lock, Event.unlock])
  | 0, _, _ => ⟨[], rfl, Or.inl rfl⟩
  | fuel + 1, ok_calls, selections => by
    cases h1 : env.ok ok_calls with
    | false =>
      rw [run_head_false env fuel ok_calls selections h1]
      exact ⟨[], rfl, Or.inl rfl⟩
    | true =>
      cases h2 : env.ok (ok_calls + 1) with
      | false =>
        rw [run_recheck_false env fuel ok_calls selections h1 h2]
        exact ⟨[Event.lock, Event.unlock], rfl, Or.inr rfl⟩
      | true =>
        cases h3 : env.execute_any_executable (env.get_next_executable selections) with
        | error e =>
          rw [run_throw env fuel ok_calls selections e h1 h2 h3]
          exact ⟨[], rfl, Or.inl rfl⟩
        | ok u =>
          rw [run_continue env fuel ok_calls selections h1 h2 h3]
          obtain ⟨tail, h4, h5⟩ := lock_events_run env fuel (ok_calls + 2) (selections + 1)
          refine ⟨tail, ?_, h5⟩
          simp [lock_events, selected, h4]

/-- The worker does not hold the mutex when it executes. -/
theorem not_holds_mutex_at_execute {α : Type} (env : Env α) :
    ∀ (fuel ok_calls selections : Nat) (pre post : List (Event α)) (a : α),
      (run env fuel ok_calls selections).1 = pre ++ Event.execute_any_executable a :: post →
      holds_mutex_after pre false = false
  | 0, _, _, pre, post, a, h => by
    simp [run] at h
  | fuel + 1, ok_calls, selections, pre, post, a, h => by
    have key : ∀ (rest : List (Event α)),
        [Event.ok true, Event.lock, Event.ok true,
          Event.get_next_executable (env.get_next_executable selections), Event.unlock]
          ++ (Event.execute_any_executable (env.get_next_executable selections) :: rest)
          = pre ++ Event.execute_any_executable a :: post →
        (∀ pre1 post1, rest = pre1 ++ Event.execute_any_executable a :: post1 →
          holds_mutex_after pre1 false = false) →
        holds_mutex_after pre false = false := by
      intro rest hsplit hrest
      obtain ⟨mid, h1, h2⟩ := append_eq_append_cons_of_not_mem
        (Event.execute_any_executable a) _ _ pre post (by simp) hsplit
      cases mid with
      | nil => rw [h1]; rfl
      | cons m mid =>
        simp only [List.cons_append, List.cons.injEq] at h2
        rw [h1, holds_mutex_after_append, ← h2.1]
        exact hrest mid post h2.2
    cases h1 : env.ok ok_calls with
    | false =>
      rw [run_head_false env fuel ok_calls selections h1] at h
      obtain ⟨mid, _, h2⟩ := append_eq_append_cons_of_not_mem (Event.execute_any_executable a)
        [Event.ok false] [] pre post (by simp) (by simpa using h)
      simp at h2
    | true =>
      cases h2 : env.ok (ok_calls + 1) with
      | false =>
        rw [run_recheck_false env fuel ok_calls selections h1 h2] at h
        obtain ⟨mid, _, h2⟩ := append_eq_append_cons_of_not_mem
          (Event.execute_any_executable a)
          [Event.ok true, Event.lock, Event.ok false, Event.unlock] [] pre post
          (by simp) (by simpa using h)
        simp at h2
      | true =>
        cases h3 : env.execute_any_executable (env.get_next_executable selections) with
        | error e =>
          rw [run_throw env fuel ok_calls selections e h1 h2 h3] at h
          exact key [] (by simpa using h) (by intro pre1 post1 h0; simp at h0)
        | ok u =>
          rw [run_continue env fuel ok_calls selections h1 h2 h3] at h
          exact key (run env fuel (ok_calls + 2) (selections + 1)).1 (by simpa using h)
            (fun pre1 post1 h0 =>
              not_holds_mutex_at_execute env fuel (ok_calls + 2) (selections + 1) pre1 post1 a h0)

/-- The executables a worker selects are consecutive results of `get_next_executable()`. -/
theorem selected_run_getElem? {α : Type} (env : Env α) :
    ∀ (fuel ok_calls selections k : Nat) (a : α),
      (selected (run env fuel ok_calls selections).1)[k]? = some a →
      a = env.get_next_executable (selections + k)
  | 0, _, _, k, a, h => by simp [run, selected] at h
  | fuel + 1, ok_calls, selections, k, a, h => by
    cases h1 : env.ok ok_calls with
    | false =>
      rw [run_head_false env fuel ok_calls selections h1] at h
      simp [selected] at h
    | true =>
      cases h2 : env.ok (ok_calls + 1) with
      | false =>
        rw [run_recheck_false env fuel ok_calls selections h1 h2] at h
        simp [selected] at h
      | true =>
        cases h3 : env.execute_any_executable (env.get_next_executable selections) with
        | error e =>
          rw [run_throw env fuel ok_calls selections e h1 h2 h3] at h
          cases k with
          | zero => simpa [selected] using h.symm
          | succ k => simp [selected] at h
        | ok u =>
          rw [run_continue env fuel ok_calls selections h1 h2 h3] at h
          cases k with
          | zero => simpa [selected] using h.symm
          | succ k =>
            have h4 : (selected (run env fuel (ok_calls + 2) (selections + 1)).1)[k]? = some a := by
              simpa [selected] using h
            have := selected_run_getElem? env fuel (ok_calls + 2) (selections + 1) k a h4
            rw [this]
            congr 1
            omega

/-- C5: for a single worker in `run`, the trace without the calls of `ok()` is, per selected
executable, the block acquire, select, release, execute of that same executable (possibly
followed by an acquire and release without selection, on shutdown); the executables executed
are exactly the executables returned by the selection step, once each and in selection order;
and at every execution the worker does not hold the mutex. -/
theorem run_selects_then_executes_unlocked {α : Type} (env : Env α)
    (fuel ok_calls selections : Nat) :
    (∃ tail, lock_events (run env fuel ok_calls selections).1
        = (selected (run env fuel ok_calls selections).1).flatMap
            (fun a => [Event.lock, Event.get_next_executable a, Event.unlock,
              Event.execute_any_executable a]) ++ tail
      ∧ (tail = [] ∨ tail = [Event.lock, Event.unlock]))
    ∧ executed (run env fuel ok_calls selections).1
        = selected (run env fuel ok_calls selections).1
    ∧ (∀ (k : Nat) (a : α), (selected (run env fuel ok_calls selections).1)[k]? = some a →
        a = env.get_next_executable (selections + k))
    ∧ (∀ (pre post : List (Event α)) (a : α),
        (run env fuel ok_calls selections).1 = pre ++ Event.execute_any_executable a :: post →
        holds_mutex_after pre false = false) :=
  ⟨lock_events_run env fuel ok_calls selections,
   executed_run_eq_selected env fuel ok_calls selections,
   selected_run_getElem? env fuel ok_calls selections,
   not_holds_mutex_at_execute env fuel ok_calls selections⟩

/-- C5 on the stopping environment: the worker selects and executes executable 0 outside the
mutex, then observes shutdown under the mutex. -/
theorem run_selects_then_executes_unlocked_witness :
    lock_events (run stopping_env 5 0 0).1
      = [Event.lock, Event.get_next_executable 0, Event.unlock, Event.execute_any_executable 0,
          Event.lock, Event.unlock]
    ∧ executed (run stopping_env 5 0 0).1 = [0]
    ∧ selected (run stopping_env 5 0 0).1 = [0]
    ∧ (0 : Nat) = stopping_env.get_next_executable (0 + 0)
    ∧ holds_mutex_after
        [Event.ok true, Event.lock, Event.ok true, Event.get_next_executable 0, Event.unlock]
        false = false :=
  ⟨by decide, by decide, by decide,
   (run_selects_then_executes_unlocked stopping_env 5 0 0).2.2.1 0 0 (by decide),
   (run_selects_then_executes_unlocked stopping_env 5 0 0).2.2.2
     [Event.ok true, Event.lock, Event.ok true, Event.get_next_executable 0, Event.unlock]
     [Event.ok true, Event.lock, Event.ok false, Event.unlock] 0 (by decide)⟩

/-- C6: once a call of `ok()` inside `run` has returned false, the worker makes no further
selection: if it does not hold the mutex (loop head) nothing follows, if it holds the mutex
(check after acquiring) the only thing that follows is the release; and `run` has returned. -/
theorem run_returns_after_ok_false {α : Type} (env : Env α) :
    ∀ (fuel ok_calls selections : Nat) (pre post : List (Event α)),
      (run env fuel ok_calls selections).1 = pre ++ Event.ok false :: post →
      (run env fuel ok_calls selections).2 = some (.ok ())
      ∧ selected post = []
      ∧ ((holds_mutex_after pre false = false ∧ post = [])
          ∨ (holds_mutex_after pre false = true ∧ post = [Event.unlock]))
  | 0, _, _, pre, post, h => by
    simp [run] at h
  | fuel + 1, ok_calls, selections, pre, post, h => by
    cases h1 : env.ok ok_calls with
    | false =>
      rw [run_head_false env fuel ok_calls selections h1] at h ⊢
      cases pre with
      | nil =>
        simp only [List.nil_append, List.cons.injEq, true_and] at h
        subst h
        exact ⟨rfl, rfl, Or.inl ⟨rfl, rfl⟩⟩
      | cons p pre =>
        simp at h
    | true =>
      cases h2 : env.ok (ok_calls + 1) with
      | false =>
        rw [run_recheck_false env fuel ok_calls selections h1 h2] at h ⊢
        obtain ⟨mid, h3, h4⟩ := append_eq_append_cons_of_not_mem (Event.ok false)
          [Event.ok true, Event.lock] [Event.ok false, Event.unlock] pre post
          (by simp) (by simpa using h)
        cases mid with
        | nil =>
          simp only [List.nil_append, List.cons.injEq, true_and] at h4
          subst h4
          subst h3
          exact ⟨rfl, rfl, Or.inr ⟨rfl, rfl⟩⟩
        | cons m mid =>
          simp only [List.cons_append, List.cons.injEq] at h4
          obtain ⟨_, h5⟩ := h4
          cases mid with
          | nil => simp at h5
          | cons m1 mid => simp at h5
      | true =>
        cases h3 : env.execute_any_executable (env.get_next_executable selections) with
        | error e =>
          rw [run_throw env fuel ok_calls selections e h1 h2 h3] at h
          obtain ⟨mid, _, h5⟩ := append_eq_append_cons_of_not_mem (Event.ok false)
            [Event.ok true, Event.lock, Event.ok true,
              Event.get_next_executable (env.get_next_executable selections), Event.unlock,
              Event.execute_any_executable (env.get_next_executable selections)] [] pre post
            (by simp) (by simpa using h)
          simp at h5
        | ok u =>
          rw [run_continue env fuel ok_calls selections h1 h2 h3] at h ⊢
          obtain ⟨mid, h4, h5⟩ := append_eq_append_cons_of_not_mem (Event.ok false)
            [Event.ok true, Event.lock, Event.ok true,
              Event.get_next_executable (env.get_next_executable selections), Event.unlock,
              Event.execute_any_executable (env.get_next_executable selections)]
            (run env fuel (ok_calls + 2) (selections + 1)).1 pre post
            (by simp) h
          have ih := run_returns_after_ok_false env fuel (ok_calls + 2) (selections + 1)
            mid post h5
          rw [h4, holds_mutex_after_append]
          exact ih

/-- C6 on the stopping environment: the second call of `ok()` under the mutex returns false;
the worker only releases the mutex and `run` returns. -/
theorem run_returns_after_ok_false_witness :
    (run stopping_env 5 0 0).1
      = [Event.ok true, Event.lock, Event.ok true, Event.get_next_executable 0, Event.unlock,
          Event.execute_any_executable 0, Event.ok true, Event.lock]
        ++ Event.ok false :: [Event.unlock]
    ∧ (run stopping_env 5 0 0).2 = some (.ok ())
    ∧ selected [(Event.unlock : Event Nat)] = []
    ∧ ((holds_mutex_after
          [Event.ok true, Event.lock, Event.ok true, Event.get_next_executable 0, Event.unlock,
            Event.execute_any_executable 0, Event.ok true, Event.lock] false = false
          ∧ [(Event.unlock : Event Nat)] = [])
        ∨ (holds_mutex_after
          [Event.ok true, Event.lock, Event.ok true, Event.get_next_executable 0, Event.unlock,
            Event.execute_any_executable 0, Event.ok true, Event.lock] false = true
          ∧ [(Event.unlock : Event Nat)] = [Event.unlock])) :=
  ⟨by decide,
   run_returns_after_ok_false stopping_env 5 0 0
     [Event.ok true, Event.lock, Event.ok true, Event.get_next_executable 0, Event.unlock,
       Event.execute_any_executable 0, Event.ok true, Event.lock]
     [Event.unlock] (by decide)⟩

/-- C3, as stated, fails: in the faulting environment shutdown is never signalled and
iterations remain, yet the exception of executable 1 leaves `run`, after which the worker
selects nothing more; in a pool of two workers the first worker ends in the thrown state and
only the second is still at the head of its loop. -/
theorem run_lets_exception_out_at_faulting_env :
    run faulting_env 5 0 0
      = ([Event.ok true, Event.lock, Event.ok true, Event.get_next_executable 0, Event.unlock,
          Event.execute_any_executable 0,
          Event.ok true, Event.lock, Event.ok true, Event.get_next_executable 1, Event.unlock,
          Event.execute_any_executable 1],
         some (.error (.user_fault "callback fault")))
    ∧ (Pool.exec faulting_env first_worker_schedule
          (Pool.init (MultiThreadedExecutor.create 2))).map (fun s => s.threads)
      = some [⟨1, RunPc.thrown (.user_fault "callback fault")⟩, ⟨2, RunPc.while_ok⟩] :=
  ⟨rfl, rfl⟩

/-- C3, amended: if shutdown is not signalled, the first `n` selected executables execute
without error and executing the next one raises an error, then with fuel for more than `n`
iterations `run` ends with that error: the error leaves `run`, and the worker has selected and
executed exactly those `n + 1` executables, nothing after the faulting one. -/
theorem run_stops_at_first_fault {α : Type} (env : Env α) (e : Exception) :
    ∀ (n fuel ok_calls selections : Nat),
      (∀ k, k < 2 * (n + 1) → env.ok (ok_calls + k) = true) →
      (∀ k, k < n →
        env.execute_any_executable (env.get_next_executable (selections + k)) = .ok ()) →
      env.execute_any_executable (env.get_next_executable (selections + n)) = .error e →
      n < fuel →
      (run env fuel ok_calls selections).2 = some (.error e)
      ∧ selected (run env fuel ok_calls selections).1
          = (List.range (n + 1)).map (fun k => env.get_next_executable (selections + k))
      ∧ executed (run env fuel ok_calls selections).1
          = (List.range (n + 1)).map (fun k => env.get_next_executable (selections + k))
  | _, 0, _, _, _, _, _, hfuel => absurd hfuel (Nat.not_lt_zero _)
  | 0, fuel + 1, ok_calls, selections, hok, _, hbad, _ => by
    have h1 : env.ok ok_calls = true := by simpa using hok 0 (by omega)
    have h2 : env.ok (ok_calls + 1) = true := hok 1 (by omega)
    have h3 : env.execute_any_executable (env.get_next_executable selections) = .error e := by
      simpa using hbad
    rw [run_throw env fuel ok_calls selections e h1 h2 h3]
    simp [selected, executed, List.range_succ]
  | n + 1, fuel + 1, ok_calls, selections, hok, hgood, hbad, hfuel => by
    have h1 : env.ok ok_calls = true := by simpa using hok 0 (by omega)
    have h2 : env.ok (ok_calls + 1) = true := hok 1 (by omega)
    have h3 : env.execute_any_executable (env.get_next_executable selections) = .ok () := by
      simpa using hgood 0 (by omega)
    have ih := run_stops_at_first_fault env e n fuel (ok_calls + 2) (selections + 1)
      (fun k hk => by
        have := hok (k + 2) (by omega)
        rw [← this]; congr 1; omega)
      (fun k hk => by
        have := hgood (k + 1) (by omega)
        rw [← this]; congr 2; omega)
      (by rw [← hbad]; congr 2; omega)
      (by omega)
    rw [run_continue env fuel ok_calls selections h1 h2 h3]
    have hrange : (List.range (n + 1 + 1)).map
        (fun k => env.get_next_executable (selections + k))
        = env.get_next_executable selections ::
          (List.range (n + 1)).map (fun k => env.get_next_executable (selections + 1 + k)) := by
      rw [List.range_succ_eq_map (n + 1)]
      simp only [List.map_cons, List.map_map, Nat.add_zero]
      congr 1
      apply List.map_congr_left
      intro k _
      simp only [Function.comp]
      congr 1
      omega
    rw [hrange]
    simp [selected, executed, ih.1, ih.2.1, ih.2.2]

/-- C3, amended, on the faulting environment: executable 0 executes, executable 1 throws, and
`run` ends with that error having selected and executed the executables 0 and 1 only. -/
theorem run_stops_at_first_fault_witness :
    (run faulting_env 5 0 0).2 = some (.error (.user_fault "callback fault"))
    ∧ selected (run faulting_env 5 0 0).1
        = (List.range (1 + 1)).map (fun k => faulting_env.get_next_executable (0 + k))
    ∧ executed (run faulting_env 5 0 0).1
        = (List.range (1 + 1)).map (fun k => faulting_env.get_next_executable (0 + k)) :=
  run_stops_at_first_fault faulting_env (.user_fault "callback fault") 1 5 0 0
    (fun _ _ => rfl)
    (fun k hk => by
      have hk0 : k = 0 := by omega
      subst hk0
      rfl)
    rfl (by decide)

/-- A list in which any two elements with a property sit at the same position has at most one
element with the property. -/
theorem filter_length_le_one {β : Type} (P : β → Bool) :
    ∀ (l : List β),
      (∀ (i j : Nat) (a b : β), l[i]? = some a → l[j]? = some b → P a = true → P b = true →
        i = j) →
      (l.filter P).length ≤ 1
  | [], _ => by simp
  | x :: l, h => by
    cases hx : P x with
    | false =>
      rw [List.filter_cons_of_neg (by simp [hx])]
      apply filter_length_le_one P l
      intro i j a b hi hj ha hb
      have := h (i + 1) (j + 1) a b (by simpa using hi) (by simpa using hj) ha hb
      omega
    | true =>
      have hnil : l.filter P = [] := by
        rw [List.filter_eq_nil_iff]
        intro b hb hPb
        obtain ⟨j, hj⟩ := List.getElem?_of_mem hb
        have := h 0 (j + 1) x b (by simp) (by simpa using hj) hx hPb
        omega
      rw [List.filter_cons_of_pos (by simp [hx]), hnil]
      simp

/-- The state in which `spin` is entered records the holder of the mutex. -/
theorem holders_recorded_init {α : Type} (self : MultiThreadedExecutor) :
    (Pool.init self : Pool α).holders_recorded := by
  constructor
  · intro h; simp [Pool.init, SpinPc.holds_mutex] at h
  · intro j w hj; simp [Pool.init] at hj

/-- Moving one worker keeps the holder recorded when the worker stays on its side of the guarded
scope, when it leaves the scope and frees the mutex, or when it takes the free mutex. -/
theorem holders_recorded_set {α : Type} (s : Pool α) (j : Nat) (w w1 : Worker α)
    (m1 : Option Thread) (oc sel : Nat)
    (hinv : s.holders_recorded) (hw : s.threads[j]? = some w)
    (hcase : (m1 = s.wait_mutex_ ∧ (w1.pc.in_selection = true → w.pc.in_selection = true))
      ∨ (m1 = none ∧ w.pc.in_selection = true ∧ w1.pc.in_selection = false)
      ∨ (s.wait_mutex_ = none ∧ m1 = some (Thread.worker j))) :
    Pool.holders_recorded
      { number_of_threads_ := s.number_of_threads_
        wait_mutex_ := m1
        spin := s.spin
        threads := s.threads.set j w1
        ok_calls := oc
        selections := sel } := by
  obtain ⟨hspin, hworkers⟩ := hinv
  have hjlt : j < s.threads.length := allocator.lt_length_of_getElem? _ _ _ hw
  have hget : ∀ (i : Nat) (wi : Worker α), (s.threads.set j w1)[i]? = some wi →
      (i = j ∧ wi = w1) ∨ (i ≠ j ∧ s.threads[i]? = some wi) := by
    intro i wi hi
    by_cases hij : i = j
    · subst hij
      rw [List.getElem?_set_self hjlt] at hi
      exact Or.inl ⟨rfl, (Option.some.inj hi).symm⟩
    · rw [List.getElem?_set_ne (fun h => hij h.symm)] at hi
      exact Or.inr ⟨hij, hi⟩
  rcases hcase with ⟨hm, hpc⟩ | ⟨hm, hold, hnew⟩ | ⟨hfree, hm⟩
  · constructor
    · intro hs; simp only at hs ⊢; rw [hm]; exact hspin hs
    · intro i wi hi hsel
      simp only at hi ⊢
      rcases hget i wi hi with ⟨hij, hwi⟩ | ⟨_, hold⟩
      · rw [hm, hij]; exact hworkers j w hw (hpc (hwi ▸ hsel))
      · rw [hm]; exact hworkers i wi hold hsel
  · constructor
    · intro hs
      simp only at hs
      have h1 := hspin hs
      have h2 := hworkers j w hw hold
      rw [h1] at h2
      cases h2
    · intro i wi hi hsel
      simp only at hi
      rcases hget i wi hi with ⟨_, hwi⟩ | ⟨hij, hold1⟩
      · rw [hwi, hnew] at hsel; cases hsel
      · have h1 := hworkers i wi hold1 hsel
        have h2 := hworkers j w hw hold
        rw [h1] at h2
        exact absurd (Thread.worker.inj (Option.some.inj h2)) hij
  · constructor
    · intro hs
      simp only at hs
      have h1 := hspin hs
      rw [hfree] at h1
      cases h1
    · intro i wi hi hsel
      simp only at hi ⊢
      rcases hget i wi hi with ⟨hij, _⟩ | ⟨_, hold1⟩
      · rw [hm, hij]
      · have h1 := hworkers i wi hold1 hsel
        rw [hfree] at h1
        cases h1

/-- A step of a worker keeps the holder of the mutex recorded. -/
theorem holders_recorded_worker_step {α : Type} (env : Env α) (s s1 : Pool α) (j : Nat)
    (hinv : s.holders_recorded) (h : s.worker_step env j = some s1) : s1.holders_recorded := by
  unfold Pool.worker_step at h
  cases hw : s.threads[j]? with
  | none => rw [hw] at h; cases h
  | some w =>
    rw [hw] at h
    simp only at h
    cases hpc : w.pc with
    | while_ok =>
      rw [hpc] at h
      simp only at h
      split at h <;> cases h <;>
        exact holders_recorded_set s j w _ _ _ _ hinv hw
          (Or.inl ⟨rfl, fun hsel => by cases hsel⟩)
    | lock_guard =>
      rw [hpc] at h
      simp only at h
      cases hm : s.wait_mutex_ with
      | none =>
        rw [hm] at h
        cases h
        exact holders_recorded_set s j w _ _ _ _ hinv hw (Or.inr (Or.inr ⟨hm, rfl⟩))
      | some t => rw [hm] at h; cases h
    | if_not_ok =>
      rw [hpc] at h
      simp only at h
      split at h <;> cases h
      · exact holders_recorded_set s j w _ _ _ _ hinv hw
          (Or.inl ⟨rfl, fun _ => by rw [hpc]; rfl⟩)
      · exact holders_recorded_set s j w _ _ _ _ hinv hw
          (Or.inr (Or.inl ⟨rfl, by rw [hpc]; rfl, rfl⟩))
    | get_next_executable =>
      rw [hpc] at h
      cases h
      exact holders_recorded_set s j w _ _ _ _ hinv hw
        (Or.inl ⟨rfl, fun _ => by rw [hpc]; rfl⟩)
    | end_of_scope any_exec =>
      rw [hpc] at h
      cases h
      exact holders_recorded_set s j w _ _ _ _ hinv hw
        (Or.inr (Or.inl ⟨rfl, by rw [hpc]; rfl, rfl⟩))
    | execute_any_executable any_exec =>
      rw [hpc] at h
      simp only at h
      split at h <;> cases h <;>
        exact holders_recorded_set s j w _ _ _ _ hinv hw
          (Or.inl ⟨rfl, fun hsel => by cases hsel⟩)
    | returned => rw [hpc] at h; cases h
    | thrown e => rw [hpc] at h; cases h

/-- A step of the thread inside `spin` keeps the holder of the mutex recorded. -/
theorem holders_recorded_spin_step {α : Type} (s s1 : Pool α)
    (hinv : s.holders_recorded) (h : s.spin_step = some s1) : s1.holders_recorded := by
  obtain ⟨hspin, hworkers⟩ := hinv
  unfold Pool.spin_step at h
  cases hpc : s.spin with
  | lock_guard =>
    rw [hpc] at h
    simp only at h
    cases hm : s.wait_mutex_ with
    | none =>
      rw [hm] at h
      cases h
      refine ⟨fun _ => rfl, ?_⟩
      intro j w hj hsel
      have := hworkers j w hj hsel
      rw [hm] at this
      cases this
    | some t => rw [hm] at h; cases h
  | for_loop i thread_id_ =>
    rw [hpc] at h
    simp only at h
    have hheld : s.wait_mutex_ = some Thread.spin := hspin (by rw [hpc]; rfl)
    split at h <;> cases h
    · refine ⟨fun _ => hheld, ?_⟩
      intro j w hj hsel
      simp only at hj ⊢
      by_cases hlt : j < s.threads.length
      · rw [List.getElem?_append_left hlt] at hj
        exact hworkers j w hj hsel
      · rw [List.getElem?_append_right (Nat.le_of_not_lt hlt)] at hj
        cases hk : j - s.threads.length with
        | zero =>
          rw [hk] at hj
          simp only [List.getElem?_cons_zero, Option.some.injEq] at hj
          rw [← hj] at hsel
          cases hsel
        | succ k =>
          rw [hk] at hj
          simp at hj
    · exact ⟨fun _ => hheld, hworkers⟩
  | end_of_scope =>
    rw [hpc] at h
    cases h
    have hheld : s.wait_mutex_ = some Thread.spin := hspin (by rw [hpc]; rfl)
    refine ⟨fun hs => (by cases hs), ?_⟩
    intro j w hj hsel
    have := hworkers j w hj hsel
    rw [hheld] at this
    cases this
  | join k =>
    rw [hpc] at h
    simp only at h
    have hfree : s.spin.holds_mutex = true → False := by rw [hpc]; intro hs; cases hs
    cases hk : s.threads[k]? with
    | none =>
      rw [hk] at h
      cases h
      exact ⟨fun hs => (by cases hs), hworkers⟩
    | some w =>
      rw [hk] at h
      simp only at h
      split at h
      · cases h
        exact ⟨fun hs => (by cases hs), hworkers⟩
      · cases h
  | returned => rw [hpc] at h; cases h

/-- Every step keeps the holder of the mutex recorded. -/
theorem holders_recorded_step {α : Type} (env : Env α) (s s1 : Pool α) (t : Thread)
    (hinv : s.holders_recorded) (h : s.step env t = some s1) : s1.holders_recorded := by
  cases t with
  | spin => exact holders_recorded_spin_step s s1 hinv h
  | worker j => exact holders_recorded_worker_step env s s1 j hinv h

/-- Every schedule keeps the holder of the mutex recorded. -/
theorem holders_recorded_exec {α : Type} (env : Env α) :
    ∀ (schedule : List Thread) (s s1 : Pool α),
      s.holders_recorded → Pool.exec env schedule s = some s1 → s1.holders_recorded
  | [], s, s1, hinv, h => by
    simp only [Pool.exec, Option.some.injEq] at h
    rw [← h]; exact hinv
  | t :: schedule, s, s1, hinv, h => by
    simp only [Pool.exec] at h
    cases hstep : s.step env t with
    | none => rw [hstep] at h; cases h
    | some s2 =>
      rw [hstep] at h
      exact holders_recorded_exec env schedule s2 s1
        (holders_recorded_step env s s2 t hinv hstep) h

/-- C4: for every executor (every worker count) and every interleaving of the thread inside
`spin` and the workers inside `run`, in the state reached at most one worker is between
acquiring and releasing `wait_mutex_`: two workers that are both there are the same worker,
and while the thread inside `spin` holds the mutex no worker is there. -/
theorem at_most_one_worker_in_selection {α : Type} (env : Env α)
    (self : MultiThreadedExecutor) (schedule : List Thread) (s : Pool α)
    (h : Pool.exec env schedule (Pool.init self) = some s) :
    s.workers_in_selection ≤ 1
    ∧ (∀ (i j : Nat) (wi wj : Worker α), s.threads[i]? = some wi → s.threads[j]? = some wj →
        wi.pc.in_selection = true → wj.pc.in_selection = true → i = j)
    ∧ (s.spin.holds_mutex = true → s.workers_in_selection = 0) := by
  have hinv := holders_recorded_exec env schedule _ s (holders_recorded_init self) h
  obtain ⟨hspin, hworkers⟩ := hinv
  have hpair : ∀ (i j : Nat) (wi wj : Worker α), s.threads[i]? = some wi →
      s.threads[j]? = some wj → wi.pc.in_selection = true → wj.pc.in_selection = true →
      i = j := by
    intro i j wi wj hi hj hseli hselj
    have h1 := hworkers i wi hi hseli
    have h2 := hworkers j wj hj hselj
    rw [h1] at h2
    exact Thread.worker.inj (Option.some.inj h2)
  refine ⟨filter_length_le_one _ s.threads hpair, hpair, ?_⟩
  intro hs
  have hheld := hspin hs
  unfold Pool.workers_in_selection
  rw [List.length_eq_zero, List.filter_eq_nil_iff]
  intro w hw hsel
  obtain ⟨j, hj⟩ := List.getElem?_of_mem hw
  have := hworkers j w hj hsel
  rw [hheld] at this
  cases this

/-- C4 on a pool of two workers: after the contended schedule the first worker is between
acquiring and releasing the mutex, the second waits for it, and one worker is counted. -/
theorem at_most_one_worker_in_selection_witness :
    Pool.exec stopping_env contended_schedule (Pool.init (MultiThreadedExecutor.create 2))
      = some
        { number_of_threads_ := 2
          wait_mutex_ := some (Thread.worker 0)
          spin := SpinPc.join 0
          threads := [⟨1, RunPc.if_not_ok⟩, ⟨2, RunPc.lock_guard⟩]
          ok_calls := 2
          selections := 0 }
    ∧ Pool.workers_in_selection
        ({ number_of_threads_ := 2
           wait_mutex_ := some (Thread.worker 0)
           spin := SpinPc.join 0
           threads := [⟨1, RunPc.if_not_ok⟩, ⟨2, RunPc.lock_guard⟩]
           ok_calls := 2
           selections := 0 } : Pool Nat) ≤ 1 :=
  ⟨by decide,
   (at_most_one_worker_in_selection stopping_env (MultiThreadedExecutor.create 2)
      contended_schedule _ (by decide)).1⟩

end multi_threaded_executor

end executors

end rclcpp
